import Mathlib

/-!
Verification of the hex-board chunk-streaming game (`src/main.rs`).

The Rust source is shallowly embedded: `f32` scalars are idealised as exact
rationals (`ℚ`), Rust `i32` as unbounded `ℤ` (no coordinate in play approaches
the 32-bit range), Rust truncating division `/` as `Int.tdiv`, and the
`HashSet<(i32,i32)>` resource `LoadedChunks` as a `Finset (ℤ × ℤ)`.
Bevy-side effects (entity spawns, asset insertions) are modelled as explicit
data returned by the embedded systems.
-/

/-- `const HEX_RADIUS: f32 = 40.0`. -/
def HEX_RADIUS : ℚ := 40

/-- `const CHUNK_SIZE: i32 = 7`. -/
def CHUNK_SIZE : ℤ := 7

/-- `const VIEW_DISTANCE: i32 = 2`. -/
def VIEW_DISTANCE : ℤ := 2

/-- The `f32` value of `3.0_f32.sqrt()` used by `hex_to_world`
(the nearest `f32` to √3, as an exact rational).  No theorem below depends on
its numeric value, only on both callers using the same constant. -/
def sqrt3 : ℚ := 14529495 / 8388608

/-- Bevy `Vec3`, with `f32` components idealised as rationals. -/
structure Vec3 where
  x : ℚ
  y : ℚ
  z : ℚ
deriving DecidableEq, Repr

/-- Bevy `Vec3::lerp(self, rhs, s) = self + (rhs - self) * s`, componentwise. -/
def Vec3.lerp (a b : Vec3) (s : ℚ) : Vec3 :=
  ⟨a.x + (b.x - a.x) * s, a.y + (b.y - a.y) * s, a.z + (b.z - a.z) * s⟩

/-- `fn hex_to_world(q: i32, r: i32) -> (f32, f32)`:
`x = R·(3/2)·q`, `y = R·(√3/2·q + √3·r)`. -/
def hex_to_world (q r : ℤ) : ℚ × ℚ :=
  (HEX_RADIUS * (3 / 2 * (q : ℚ)),
   HEX_RADIUS * (sqrt3 / 2 * (q : ℚ) + sqrt3 * (r : ℚ)))

/-- The `PlayerMovement` component. -/
structure PlayerMovement where
  target_position : Vec3
  start_position : Vec3
  move_timer : ℚ
  move_duration : ℚ
  is_moving : Bool
deriving DecidableEq, Repr

/-- The player-chunk derivation inlined in `manage_chunks` (lines 337–338):
`if p >= 0 { p / CHUNK_SIZE } else { (p - CHUNK_SIZE + 1) / CHUNK_SIZE }`
applied to each coordinate, with Rust `/` = truncating division. -/
def managePlayerChunk (p : ℤ × ℤ) : ℤ × ℤ :=
  (if p.1 ≥ 0 then p.1.tdiv CHUNK_SIZE else (p.1 - CHUNK_SIZE + 1).tdiv CHUNK_SIZE,
   if p.2 ≥ 0 then p.2.tdiv CHUNK_SIZE else (p.2 - CHUNK_SIZE + 1).tdiv CHUNK_SIZE)

/-- The player-chunk derivation inlined in `update_chunk_display`
(lines 418–419), transcribed separately from its own source site. -/
def displayPlayerChunk (p : ℤ × ℤ) : ℤ × ℤ :=
  (if p.1 ≥ 0 then p.1.tdiv CHUNK_SIZE else (p.1 - CHUNK_SIZE + 1).tdiv CHUNK_SIZE,
   if p.2 ≥ 0 then p.2.tdiv CHUNK_SIZE else (p.2 - CHUNK_SIZE + 1).tdiv CHUNK_SIZE)

/-- The single-coordinate chunk derivation agrees with floor division. -/
theorem chunkCoord_eq_fdiv (x : ℤ) :
    (if x ≥ 0 then x.tdiv CHUNK_SIZE else (x - CHUNK_SIZE + 1).tdiv CHUNK_SIZE)
      = x.fdiv CHUNK_SIZE := by
  unfold CHUNK_SIZE
  rw [Int.fdiv_eq_ediv _ (by norm_num)]
  split
  · rw [Int.tdiv_eq_ediv (by omega) (by norm_num)]
  · have hx : x < 0 := by omega
    have h1 : x - 7 + 1 = -(6 - x) := by ring
    have h2 : (0 : ℤ) ≤ 6 - x := by omega
    rw [h1, Int.neg_tdiv, Int.tdiv_eq_ediv h2 (by norm_num)]
    omega

/-- C2: the chunk index derived from a tile coordinate is the floor of the
coordinate divided by `CHUNK_SIZE` (rounding toward −∞, not toward zero);
in particular tile `q = -1` maps to chunk `-1`. -/
theorem tile_to_chunk_floors :
    (∀ q r : ℤ, managePlayerChunk (q, r) = (q.fdiv CHUNK_SIZE, r.fdiv CHUNK_SIZE)) ∧
      (managePlayerChunk (-1, 0)).1 = -1 := by
  refine ⟨fun q r => ?_, ?_⟩
  · unfold managePlayerChunk
    exact Prod.ext (chunkCoord_eq_fdiv q) (chunkCoord_eq_fdiv r)
  · decide

/-- C10: the chunk derivation duplicated in `manage_chunks` and in
`update_chunk_display` is the same function, so the chunk shown in the UI
always equals the chunk the registry streams around. -/
theorem chunk_derivations_agree :
    ∀ p : ℤ × ℤ, managePlayerChunk p = displayPlayerChunk p :=
  fun _ => rfl

/-- Rust's inclusive integer range `lo..=hi` as a list. -/
def intRange (lo hi : ℤ) : List ℤ :=
  (List.range (hi + 1 - lo).toNat).map (fun i => lo + (i : ℕ))

theorem mem_intRange {lo hi x : ℤ} : x ∈ intRange lo hi ↔ lo ≤ x ∧ x ≤ hi := by
  simp only [intRange, List.mem_map, List.mem_range]
  constructor
  · rintro ⟨i, hlt, rfl⟩; omega
  · intro h; exact ⟨(x - lo).toNat, by omega, by omega⟩

/-- The `required_chunks` computation in `manage_chunks` (lines 341–350):
iterate the square `[pcq-D, pcq+D] × [pcr-D, pcr+D]` and keep the indices
passing the three absolute-value tests. -/
def requiredChunks (pcq pcr : ℤ) : List (ℤ × ℤ) :=
  (intRange (pcq - VIEW_DISTANCE) (pcq + VIEW_DISTANCE)).flatMap fun cq =>
    (intRange (pcr - VIEW_DISTANCE) (pcr + VIEW_DISTANCE)).filterMap fun cr =>
      if |cq - pcq| ≤ VIEW_DISTANCE ∧ |cr - pcr| ≤ VIEW_DISTANCE ∧
          |(cq - pcq) + (cr - pcr)| ≤ VIEW_DISTANCE then
        some (cq, cr)
      else none

theorem mem_requiredChunks {pcq pcr cq cr : ℤ} :
    (cq, cr) ∈ requiredChunks pcq pcr ↔
      |cq - pcq| ≤ VIEW_DISTANCE ∧ |cr - pcr| ≤ VIEW_DISTANCE ∧
        |(cq - pcq) + (cr - pcr)| ≤ VIEW_DISTANCE := by
  simp only [requiredChunks, List.mem_flatMap, List.mem_filterMap, mem_intRange,
    Option.ite_none_right_eq_some, Option.some.injEq, Prod.mk.injEq, abs_le]
  constructor
  · rintro ⟨a, ha, b, hb, hcond, rfl, rfl⟩; omega
  · intro h; exact ⟨cq, by omega, cr, by omega, by omega, rfl, rfl⟩

/-- C3: the required chunk set computed by the registry is exactly the
hex-distance ball of radius `VIEW_DISTANCE` around the player's chunk
(not the full square), and it always contains the player's own chunk. -/
theorem requiredChunks_is_hex_ball :
    ∀ pcq pcr : ℤ,
      (∀ cq cr : ℤ,
        (cq, cr) ∈ requiredChunks pcq pcr ↔
          |cq - pcq| ≤ VIEW_DISTANCE ∧ |cr - pcr| ≤ VIEW_DISTANCE ∧
            |(cq - pcq) + (cr - pcr)| ≤ VIEW_DISTANCE) ∧
      (pcq, pcr) ∈ requiredChunks pcq pcr := by
  intro pcq pcr
  refine ⟨fun cq cr => mem_requiredChunks, ?_⟩
  rw [mem_requiredChunks]
  simp only [abs_le, VIEW_DISTANCE]
  omega

/-- The mesh/material asset stores (`Assets<Mesh>`, `Assets<ColorMaterial>`),
tracked by how many assets have been added to each. -/
structure AssetStore where
  meshCount : ℕ
  materialCount : ℕ
deriving DecidableEq, Repr

/-- `fn manage_chunks` (lines 328–393), restricted to its effect on the
`LoadedChunks` resource and the asset stores: derive the player chunk,
compute the required set, despawn-and-remove the loaded chunks outside it,
create fresh mesh/material handles (two `meshes.add` and two `materials.add`
calls, unconditionally), then load-and-insert each required chunk not yet
present. -/
def manage_chunks (q r : ℤ) (loaded : Finset (ℤ × ℤ)) (assets : AssetStore) :
    Finset (ℤ × ℤ) × AssetStore :=
  let pc := managePlayerChunk (q, r)
  let required := requiredChunks pc.1 pc.2
  let afterUnload := loaded.filter (fun c => c ∈ required)
  let assetsAfter : AssetStore :=
    { meshCount := assets.meshCount + 2, materialCount := assets.materialCount + 2 }
  let final := required.foldl (fun s c => if c ∈ s then s else insert c s) afterUnload
  (final, assetsAfter)

theorem mem_foldl_insertIfAbsent (l : List (ℤ × ℤ)) (init : Finset (ℤ × ℤ))
    (c : ℤ × ℤ) :
    c ∈ l.foldl (fun s x => if x ∈ s then s else insert x s) init ↔
      c ∈ init ∨ c ∈ l := by
  induction l generalizing init with
  | nil => simp
  | cons a t ih =>
    simp only [List.foldl_cons, ih, List.mem_cons]
    by_cases ha : a ∈ init
    · simp only [if_pos ha]
      constructor
      · rintro (h | h)
        · exact Or.inl h
        · exact Or.inr (Or.inr h)
      · rintro (h | rfl | h)
        · exact Or.inl h
        · exact Or.inl ha
        · exact Or.inr h
    · simp only [if_neg ha, Finset.mem_insert]
      tauto

/-- C1: after every execution of `manage_chunks`, for every player tile
position and every prior loaded set, `LoadedChunks` contains a chunk index
iff it lies in the hex-distance ball of radius `VIEW_DISTANCE` around the
player's chunk. -/
theorem manage_chunks_loaded_exactly_required :
    ∀ (q r : ℤ) (loaded : Finset (ℤ × ℤ)) (assets : AssetStore) (c : ℤ × ℤ),
      c ∈ (manage_chunks q r loaded assets).1 ↔
        |c.1 - (managePlayerChunk (q, r)).1| ≤ VIEW_DISTANCE ∧
        |c.2 - (managePlayerChunk (q, r)).2| ≤ VIEW_DISTANCE ∧
        |(c.1 - (managePlayerChunk (q, r)).1) + (c.2 - (managePlayerChunk (q, r)).2)| ≤
          VIEW_DISTANCE := by
  intro q r loaded assets c
  unfold manage_chunks
  simp only [mem_foldl_insertIfAbsent, Finset.mem_filter]
  constructor
  · rintro (⟨-, h⟩ | h) <;>
      simpa using (@mem_requiredChunks _ _ c.1 c.2).mp (by simpa using h)
  · intro h
    exact Or.inr (by simpa using (@mem_requiredChunks _ _ c.1 c.2).mpr h)

/-- C7 (failing on the code): with the player at tile `(0,0)` and the loaded
set already exactly the required set — a tick with an empty diff — the
registry pass still adds two mesh assets and two material assets, so asset
creation is per-tick, not once at startup. -/
theorem manage_chunks_adds_assets_every_tick :
    (manage_chunks 0 0 (manage_chunks 0 0 ∅ ⟨0, 0⟩).1 (manage_chunks 0 0 ∅ ⟨0, 0⟩).2).1
        = (manage_chunks 0 0 ∅ ⟨0, 0⟩).1 ∧
      (manage_chunks 0 0 ∅ ⟨0, 0⟩).2 = ⟨2, 2⟩ ∧
      (manage_chunks 0 0 (manage_chunks 0 0 ∅ ⟨0, 0⟩).1 (manage_chunks 0 0 ∅ ⟨0, 0⟩).2).2
        = ⟨4, 4⟩ := by
  decide

/-- The press-edges (`just_pressed`) of the six movement keys in one tick. -/
structure KeysPressed where
  keyW : Bool
  keyS : Bool
  keyA : Bool
  keyD : Bool
  keyQ : Bool
  keyE : Bool
deriving DecidableEq, Repr

/-- The state touched by `handle_input`: the `PlayerPosition` resource, the
`PlayerMovement` component and the sprite's `flip_x` flag. -/
structure GameState where
  player_pos : ℤ × ℤ
  movement : PlayerMovement
  flip_x : Bool
deriving DecidableEq, Repr

/-- `fn is_valid_hex`: always true in the infinite-world variant. -/
def is_valid_hex (_q _r : ℤ) : Bool := true

/-- `fn handle_input` (lines 226–285): early-return while moving, the
W/S/A/D/Q/E if-else chain adjusting `(new_q, new_r)`, `moved` and `flip_x`,
then the acceptance check starting the movement animation. -/
def handle_input (keys : KeysPressed) (st : GameState) : GameState :=
  if st.movement.is_moving then st
  else
    let p := st.player_pos
    let step : ℤ × ℤ × Bool × Bool :=
      if keys.keyW then (p.1, p.2 + 1, true, st.flip_x)
      else if keys.keyS then (p.1, p.2 - 1, true, st.flip_x)
      else if keys.keyA then (p.1 - 1, p.2, true, false)
      else if keys.keyD then (p.1 + 1, p.2, true, true)
      else if keys.keyQ then (p.1 - 1, p.2 + 1, true, false)
      else if keys.keyE then (p.1 + 1, p.2 - 1, true, true)
      else (p.1, p.2, false, st.flip_x)
    let new_q := step.1
    let new_r := step.2.1
    let moved := step.2.2.1
    let st1 : GameState := { st with flip_x := step.2.2.2 }
    if moved && is_valid_hex new_q new_r && (new_q != p.1 || new_r != p.2) then
      { st1 with
        player_pos := (new_q, new_r),
        movement := { st1.movement with
          start_position := st1.movement.target_position,
          target_position :=
            ⟨(hex_to_world new_q new_r).1, (hex_to_world new_q new_r).2, 1⟩,
          move_timer := 0,
          is_moving := true } }
    else st1

/-- `fn animate_player_movement` (lines 292–315): while moving, accumulate
`delta_secs` into `move_timer`; past `move_duration` snap to the target and
go idle, otherwise place the transform at the smoothstep-eased lerp. -/
def animate_player_movement (dt : ℚ) (vpos : Vec3) (m : PlayerMovement) :
    Vec3 × PlayerMovement :=
  if m.is_moving then
    let m1 : PlayerMovement := { m with move_timer := m.move_timer + dt }
    if m1.move_timer ≥ m1.move_duration then
      (m1.target_position, { m1 with is_moving := false, move_timer := 0 })
    else
      let t := m1.move_timer / m1.move_duration
      let smooth_t := t * t * (3 - 2 * t)
      (m1.start_position.lerp m1.target_position smooth_t, m1)
  else (vpos, m)

/-- The spec's easing function: `smoothstep(t) = t²(3−2t)` with `t` clamped
to `[0,1]`. -/
def smoothstepClamped (t : ℚ) : ℚ :=
  let c := max 0 (min 1 t)
  c * c * (3 - 2 * c)

/-- C4: while `is_moving` is true, processing any combination of pressed
keys leaves the entire state (logical tile, target, start, timer, flag,
sprite facing) unchanged. -/
theorem handle_input_movement_lock :
    ∀ (keys : KeysPressed) (st : GameState),
      st.movement.is_moving = true → handle_input keys st = st := by
  intro keys st h
  simp [handle_input, h]

/-- A concrete mid-animation state for exercising the movement lock. -/
def demoMovingState : GameState :=
  { player_pos := (3, -2),
    movement := { target_position := ⟨60, 20, 1⟩, start_position := ⟨0, 0, 1⟩,
                  move_timer := 1 / 10, move_duration := 3 / 10, is_moving := true },
    flip_x := false }

theorem handle_input_movement_lock_witness :
    handle_input ⟨true, true, true, true, true, true⟩ demoMovingState
      = demoMovingState :=
  handle_input_movement_lock ⟨true, true, true, true, true, true⟩ demoMovingState rfl

/-- C9: per tick the input mapper applies at most one direction, chosen by
the fixed priority W(N), S(S), A(W), D(E), Q(NW), E(SE) — first match wins —
with the respective axial offsets `(0,1)`, `(0,-1)`, `(-1,0)`, `(1,0)`,
`(-1,1)`, `(1,-1)`. -/
theorem handle_input_priority_and_offsets :
    ∀ (keys : KeysPressed) (st : GameState),
      st.movement.is_moving = false →
      ((handle_input keys st).player_pos.1 - st.player_pos.1,
       (handle_input keys st).player_pos.2 - st.player_pos.2) =
        (if keys.keyW then ((0 : ℤ), (1 : ℤ))
         else if keys.keyS then (0, -1)
         else if keys.keyA then (-1, 0)
         else if keys.keyD then (1, 0)
         else if keys.keyQ then (-1, 1)
         else if keys.keyE then (1, -1)
         else (0, 0)) := by
  intro keys st h
  obtain ⟨kw, ks, ka, kd, kq, ke⟩ := keys
  cases kw <;> cases ks <;> cases ka <;> cases kd <;> cases kq <;> cases ke <;>
    simp [handle_input, h, is_valid_hex]

/-- A concrete idle state for exercising accepted moves. -/
def demoIdleState : GameState :=
  { player_pos := (0, 0),
    movement := { target_position := ⟨0, 0, 1⟩, start_position := ⟨0, 0, 1⟩,
                  move_timer := 0, move_duration := 3 / 10, is_moving := false },
    flip_x := false }

theorem handle_input_priority_and_offsets_witness :
    ((handle_input ⟨false, true, false, true, false, false⟩ demoIdleState).player_pos.1
        - demoIdleState.player_pos.1,
     (handle_input ⟨false, true, false, true, false, false⟩ demoIdleState).player_pos.2
        - demoIdleState.player_pos.2) = ((0 : ℤ), (-1 : ℤ)) := by
  have h := handle_input_priority_and_offsets
    ⟨false, true, false, true, false, false⟩ demoIdleState rfl
  simpa using h

/-- C6: an accepted move from `Idle` records `start_position` equal to the
player's current visual position (which, at rest, is the previous
`target_position`), sets `target_position = tile_to_world(new tile)` with
`z = 1`, resets the timer, and updates the logical tile immediately — the
returned state already has the new `player_pos` while `is_moving` is true. -/
theorem handle_input_accepts_move :
    ∀ (keys : KeysPressed) (st : GameState) (vpos : Vec3),
      st.movement.is_moving = false →
      vpos = st.movement.target_position →
      (keys.keyW || keys.keyS || keys.keyA || keys.keyD || keys.keyQ || keys.keyE)
        = true →
      (handle_input keys st).movement.start_position = vpos ∧
      (handle_input keys st).movement.target_position =
        ⟨(hex_to_world (handle_input keys st).player_pos.1
            (handle_input keys st).player_pos.2).1,
         (hex_to_world (handle_input keys st).player_pos.1
            (handle_input keys st).player_pos.2).2, 1⟩ ∧
      (handle_input keys st).movement.move_timer = 0 ∧
      (handle_input keys st).movement.is_moving = true ∧
      (handle_input keys st).player_pos ≠ st.player_pos := by
  intro keys st vpos h hv hk
  subst hv
  obtain ⟨kw, ks, ka, kd, kq, ke⟩ := keys
  cases kw <;> cases ks <;> cases ka <;> cases kd <;> cases kq <;> cases ke <;>
    simp_all [handle_input, is_valid_hex, Prod.ext_iff]

theorem handle_input_accepts_move_witness :
    (handle_input ⟨true, false, false, false, false, false⟩ demoIdleState).movement.start_position
        = ⟨0, 0, 1⟩ ∧
      (handle_input ⟨true, false, false, false, false, false⟩ demoIdleState).movement.target_position =
        ⟨(hex_to_world (handle_input ⟨true, false, false, false, false, false⟩ demoIdleState).player_pos.1
            (handle_input ⟨true, false, false, false, false, false⟩ demoIdleState).player_pos.2).1,
         (hex_to_world (handle_input ⟨true, false, false, false, false, false⟩ demoIdleState).player_pos.1
            (handle_input ⟨true, false, false, false, false, false⟩ demoIdleState).player_pos.2).2, 1⟩ ∧
      (handle_input ⟨true, false, false, false, false, false⟩ demoIdleState).movement.move_timer = 0 ∧
      (handle_input ⟨true, false, false, false, false, false⟩ demoIdleState).movement.is_moving = true ∧
      (handle_input ⟨true, false, false, false, false, false⟩ demoIdleState).player_pos
        ≠ demoIdleState.player_pos :=
  handle_input_accepts_move ⟨true, false, false, false, false, false⟩ demoIdleState
    ⟨0, 0, 1⟩ rfl rfl rfl

/-- C5: while moving, if the accumulated timer stays below the duration the
visual position is the smoothstep-eased lerp of start and target (the code's
unclamped `t` agrees with the spec's clamped one since `0 ≤ t < 1` there);
once the timer reaches the duration the position snaps exactly to the
target, `is_moving` clears and the timer resets to 0. -/
theorem animate_movement_correct :
    ∀ (dt : ℚ) (vpos : Vec3) (m : PlayerMovement),
      m.is_moving = true → 0 ≤ m.move_timer + dt →
      ((m.move_timer + dt < m.move_duration →
          (animate_player_movement dt vpos m).1 =
            m.start_position.lerp m.target_position
              (smoothstepClamped ((m.move_timer + dt) / m.move_duration))) ∧
        (m.move_duration ≤ m.move_timer + dt →
          (animate_player_movement dt vpos m).1 = m.target_position ∧
          (animate_player_movement dt vpos m).2.is_moving = false ∧
          (animate_player_movement dt vpos m).2.move_timer = 0)) := by
  intro dt vpos m hmov h0
  constructor
  · intro hlt
    have hdpos : 0 < m.move_duration := lt_of_le_of_lt h0 hlt
    have ht0 : 0 ≤ (m.move_timer + dt) / m.move_duration :=
      div_nonneg h0 (le_of_lt hdpos)
    have ht1 : (m.move_timer + dt) / m.move_duration < 1 :=
      (div_lt_one hdpos).mpr hlt
    have hclamp : smoothstepClamped ((m.move_timer + dt) / m.move_duration) =
        ((m.move_timer + dt) / m.move_duration) * ((m.move_timer + dt) / m.move_duration) *
          (3 - 2 * ((m.move_timer + dt) / m.move_duration)) := by
      unfold smoothstepClamped
      rw [min_eq_right (le_of_lt ht1), max_eq_right ht0]
    rw [hclamp]
    simp only [animate_player_movement, hmov, if_true]
    rw [if_neg (by simpa using not_le.mpr hlt)]
  · intro hge
    simp only [animate_player_movement, hmov, if_true]
    rw [if_pos (by simpa using hge)]
    exact ⟨rfl, rfl, rfl⟩

/-- A concrete mid-animation state: `duration = 0.3`, timer about to reach
`0.15`, start `(0,0,0)`, target `(2,4,6)`. -/
def demoAnimState : PlayerMovement :=
  { target_position := ⟨2, 4, 6⟩, start_position := ⟨0, 0, 0⟩,
    move_timer := 0, move_duration := 3 / 10, is_moving := true }

/-- At `elapsed = 0.15` of a `0.3`-second move the visual position is the
exact midpoint: `smoothstep(0.5) = 0.5`. -/
theorem animate_movement_correct_witness :
    (0 : ℚ) ≤ demoAnimState.move_timer + 3 / 20 ∧
      demoAnimState.move_timer + 3 / 20 < demoAnimState.move_duration ∧
      (animate_player_movement (3 / 20) ⟨0, 0, 0⟩ demoAnimState).1 = ⟨1, 2, 3⟩ := by
  have h := animate_movement_correct (3 / 20) ⟨0, 0, 0⟩ demoAnimState rfl
    (by norm_num [demoAnimState])
  refine ⟨by norm_num [demoAnimState], by norm_num [demoAnimState], ?_⟩
  rw [h.1 (by norm_num [demoAnimState])]
  norm_num [demoAnimState, smoothstepClamped, Vec3.lerp]

/-- One `commands.spawn` call issued by `load_chunk`: the mesh and material
handles used, the transform translation, the optional `HexTile` component
and the `Chunk` component. -/
structure SpawnCmd where
  mesh : ℕ
  material : ℕ
  pos : Vec3
  hexTile : Option (ℤ × ℤ)
  chunk : ℤ × ℤ
deriving DecidableEq, Repr

/-- `fn load_chunk` (lines 102–138): iterate `local_q, local_r` over
`0..CHUNK_SIZE`, offset by `chunk × CHUNK_SIZE`, and per tile spawn the
full-size background hex (border material, `z = -0.1`, `Chunk` tag only)
and the smaller grass hex (`z = 0`, `HexTile` and `Chunk` tags). -/
def load_chunk (chunk_q chunk_r : ℤ)
    (mesh_handle smaller_mesh_handle grass_material border_material : ℕ) :
    List SpawnCmd :=
  let chunk_offset_q := chunk_q * CHUNK_SIZE
  let chunk_offset_r := chunk_r * CHUNK_SIZE
  (intRange 0 (CHUNK_SIZE - 1)).flatMap fun local_q =>
    (intRange 0 (CHUNK_SIZE - 1)).flatMap fun local_r =>
      let q := chunk_offset_q + local_q
      let r := chunk_offset_r + local_r
      [{ mesh := mesh_handle, material := border_material,
         pos := ⟨(hex_to_world q r).1, (hex_to_world q r).2, -(1/10)⟩,
         hexTile := none, chunk := (chunk_q, chunk_r) },
       { mesh := smaller_mesh_handle, material := grass_material,
         pos := ⟨(hex_to_world q r).1, (hex_to_world q r).2, 0⟩,
         hexTile := some (q, r), chunk := (chunk_q, chunk_r) }]

theorem intRange_eq_map (lo hi : ℤ) :
    intRange lo hi = (intRange 0 (hi - lo)).map (fun x => lo + x) := by
  unfold intRange
  rw [List.map_map]
  have h : hi - lo + 1 - 0 = hi + 1 - lo := by ring
  rw [h]
  congr 1
  funext i
  simp

/-- C8 fails as stated: in chunk `(0,0)` the background visuals carry no
tile coordinate — `load_chunk` spawns them with only the `Chunk` tag. -/
theorem load_chunk_background_untagged :
    ∃ cmd ∈ load_chunk 0 0 0 1 2 3, cmd.hexTile = none := by decide

/-- C8 (amended): materialization of chunk `(cq, cr)` enumerates exactly the
tiles `q ∈ [cq·CS, cq·CS + CS)`, `r ∈ [cr·CS, cr·CS + CS)` and spawns two
visuals per tile at the geometry-given position — the background cell tagged
with the owning chunk index only, and the inset fill tagged with both the
tile coordinate and the chunk index. -/
theorem load_chunk_enumerates_chunk_tiles :
    ∀ (cq cr : ℤ) (mh smh gm bm : ℕ),
      load_chunk cq cr mh smh gm bm =
        (intRange (cq * CHUNK_SIZE) (cq * CHUNK_SIZE + (CHUNK_SIZE - 1))).flatMap fun q =>
          (intRange (cr * CHUNK_SIZE) (cr * CHUNK_SIZE + (CHUNK_SIZE - 1))).flatMap fun r =>
            [{ mesh := mh, material := bm,
               pos := ⟨(hex_to_world q r).1, (hex_to_world q r).2, -(1/10)⟩,
               hexTile := none, chunk := (cq, cr) },
             { mesh := smh, material := gm,
               pos := ⟨(hex_to_world q r).1, (hex_to_world q r).2, 0⟩,
               hexTile := some (q, r), chunk := (cq, cr) }] := by
  intro cq cr mh smh gm bm
  have h1 : cq * CHUNK_SIZE + (CHUNK_SIZE - 1) - cq * CHUNK_SIZE = CHUNK_SIZE - 1 := by
    ring
  have h2 : cr * CHUNK_SIZE + (CHUNK_SIZE - 1) - cr * CHUNK_SIZE = CHUNK_SIZE - 1 := by
    ring
  simp only [intRange_eq_map (cr * CHUNK_SIZE) (cr * CHUNK_SIZE + (CHUNK_SIZE - 1)), h2,
    List.flatMap_map]
  simp only [intRange_eq_map (cq * CHUNK_SIZE) (cq * CHUNK_SIZE + (CHUNK_SIZE - 1)), h1,
    List.flatMap_map]
  rfl
